import Mathlib

/-!
Verification development for the artifact persistence layer of a
fully-homomorphic-encryption library (safe serialization envelope,
elliptic-curve point codec, and versioned-upgrade engine).

The definitions below are a shallow embedding of the Rust sources:
* `tfhe/src/safe_serialization.rs` (namespace `SafeSer`),
* `tfhe-zk-pok/src/serialization.rs` (namespace `ZkSer`),
* `tfhe/src/core_crypto/backward_compatibility/entities/lwe_keyswitch_key.rs`
  (namespace `Ksk`).

Machine integers (`u64`) are modelled as `Nat` with explicit reduction
modulo `2 ^ 64` at the one place where overflow matters (the payload
size-budget subtraction). Fallible Rust functions returning `Result`
are modelled as `Except`.
-/

namespace SafeSer

/-- Source: `SERIALIZATION_VERSION` in `safe_serialization.rs`. -/
def SERIALIZATION_VERSION : String := "0.5"

/-- Source: `VERSIONING_VERSION` in `safe_serialization.rs`. -/
def VERSIONING_VERSION : String := "0.1"

/-- Source: `HEADER_LENGTH_LIMIT` in `safe_serialization.rs`. -/
def HEADER_LENGTH_LIMIT : Nat := 1000

/-- The modulus of the Rust `u64` type. -/
def U64_MOD : Nat := 18446744073709551616

/-- Rust `u64` wrapping subtraction: `x - y` computed modulo `2 ^ 64`
(the release-mode behavior of the `-` operator on `u64`). -/
def wrappingSubU64 (x y : Nat) : Nat := (x + (U64_MOD - y)) % U64_MOD

/-- Source: `enum SerializationVersioningMode`. -/
inductive SerializationVersioningMode where
  | Versioned
  | Unversioned
deriving DecidableEq

/-- Source: `struct SerializationHeader`. The `Cow<str>` fields are
modelled as `String`; `T::NAME` is threaded as an explicit argument. -/
structure SerializationHeader where
  header_version : String
  versioning_mode : SerializationVersioningMode
  versioning_version : String
  name : String
deriving DecidableEq

/-- Source: `SerializationHeader::new_versioned::<T>`. -/
def SerializationHeader.new_versioned (name : String) : SerializationHeader :=
  { header_version := SERIALIZATION_VERSION
    versioning_mode := .Versioned
    versioning_version := VERSIONING_VERSION
    name := name }

/-- Source: `SerializationHeader::new_unversioned::<T>`. `CRATE_VERSION`
is a build-time constant (crate major.minor) not present under `src/`,
so it is threaded as the explicit argument `crate_version`. -/
def SerializationHeader.new_unversioned (crate_version name : String) :
    SerializationHeader :=
  { header_version := SERIALIZATION_VERSION
    versioning_mode := .Unversioned
    versioning_version := crate_version
    name := name }

/-- Source: `SerializationHeader::validate::<T>`. Early `return Err`
becomes sequencing in the `Except` monad: first the version checks
(branching on the versioning mode), then the type-name check. -/
def SerializationHeader.validate (h : SerializationHeader)
    (crate_version expected_name : String) : Except String Unit :=
  let versionCheck : Except String Unit :=
    if h.versioning_mode = .Versioned then
      if h.versioning_version ≠ VERSIONING_VERSION then
        .error ("On deserialization, expected versioning scheme version "
          ++ VERSIONING_VERSION ++ ", got version " ++ h.versioning_version)
      else .ok ()
    else
      if h.versioning_version ≠ crate_version then
        .error ("This " ++ h.name ++ " has been saved from TFHE-rs v"
          ++ h.versioning_version ++ ", without versioning informations. "
          ++ "Please use the versioned serialization mode for backward compatibility.")
      else .ok ()
  versionCheck.bind (fun _ =>
    if h.name ≠ expected_name then
      .error ("On deserialization, expected type " ++ expected_name
        ++ ", got type " ++ h.name)
    else .ok ())

/-- Source: `struct SerializationConfig`. -/
structure SerializationConfig where
  versioned : SerializationVersioningMode
  serialized_size_limit : Nat

/-- Source: `SerializationConfig::header_length_limit`. -/
def SerializationConfig.header_length_limit (c : SerializationConfig) : Nat :=
  if c.serialized_size_limit = 0 then 0 else HEADER_LENGTH_LIMIT

/-- Source: `SerializationConfig::create_header::<T>`. -/
def SerializationConfig.create_header (c : SerializationConfig)
    (crate_version name : String) : SerializationHeader :=
  match c.versioned with
  | .Versioned => .new_versioned name
  | .Unversioned => .new_unversioned crate_version name

/-- Modelled from the spec: the size-ceiling behavior of the opaque
binary codec (the `bincode` options value built with `with_limit`),
which is an external collaborator not under `src/`. Per the spec, each
stage is "length-limited" by a byte ceiling and "a limit of zero is a
sentinel meaning no limit": the stage fails exactly when a nonzero
ceiling is smaller than the byte size of the encoded segment. -/
def limitCheck (limit size : Nat) : Except String Unit :=
  if limit ≠ 0 ∧ limit < size then .error "the size limit has been reached"
  else .ok ()

/-- Source: `SerializationConfig::serialize_into`. The opaque codec is
abstracted by the byte sizes of the three things it may be asked to
write: the header (a function of the header value), the versionized
payload, and the raw payload. -/
def SerializationConfig.serialize_into (c : SerializationConfig)
    (header_size : SerializationHeader → Nat)
    (versioned_payload_size raw_payload_size : Nat)
    (crate_version name : String) : Except String Unit :=
  let header := c.create_header crate_version name
  (limitCheck c.header_length_limit (header_size header)).bind (fun _ =>
    match c.versioned with
    | .Versioned => limitCheck c.serialized_size_limit versioned_payload_size
    | .Unversioned => limitCheck c.serialized_size_limit raw_payload_size)

/-- Source: `enum ConformanceMode<Params>`. -/
inductive ConformanceMode (P : Type) where
  | Checked (params : P)
  | Unchecked

/-- Source: `struct DeserializationConfig<Params>`. -/
structure DeserializationConfig (P : Type) where
  serialized_size_limit : Nat
  validate_header : Bool
  conformance : ConformanceMode P

/-- Source: `DeserializationConfig::new_unsafe`. -/
def DeserializationConfig.new_unsafe {P : Type} : DeserializationConfig P :=
  { serialized_size_limit := 0
    validate_header := false
    conformance := .Unchecked }

/-- Source: `DeserializationConfig::header_length_limit`. -/
def DeserializationConfig.header_length_limit {P : Type}
    (c : DeserializationConfig P) : Nat :=
  if c.serialized_size_limit = 0 then 0 else HEADER_LENGTH_LIMIT

/-- Source: the expression
`self.serialized_size_limit - self.header_length_limit()` inside
`DeserializationConfig::deserialize_from`: a `u64` subtraction, which
wraps modulo `2 ^ 64` (release mode; it panics in debug mode). -/
def DeserializationConfig.payload_size_limit {P : Type}
    (c : DeserializationConfig P) : Nat :=
  wrappingSubU64 c.serialized_size_limit c.header_length_limit

/-- The content of the byte stream handed to `deserialize_from`, as seen
through the opaque codec: the header it decodes to and its byte size,
the payload byte size, and what the payload bytes decode to when read
as the versioned representation resp. as the raw type (`none` models
malformed bytes for that target type). -/
structure Artifact (T VT : Type) where
  header : SerializationHeader
  header_size : Nat
  payload_size : Nat
  versioned_payload : Option VT
  raw_payload : Option T

/-- Modelled from the spec: the opaque codec's decode of one segment,
producing the decoded value or a malformed-bytes error. -/
def decodeSegment {α : Type} (decoded : Option α) : Except String α :=
  match decoded with
  | some v => .ok v
  | none => .error "malformed bytes"

/-- Source: `DeserializationConfig::deserialize_from::<T>`. The
collaborators `T::unversionize` and `T::is_conformant` and the constants
`CRATE_VERSION` / `T::NAME` are threaded as arguments. The stages appear
in source order: header read under the header ceiling, optional header
validation, payload read under the wrapped remaining budget (branching
on the versioning mode recorded in the decoded header), then the
conformance gate. -/
def DeserializationConfig.deserialize_from {T VT P : Type}
    (c : DeserializationConfig P)
    (unversionize : VT → Except String T)
    (is_conformant : T → P → Bool)
    (crate_version expected_name : String)
    (a : Artifact T VT) : Except String T :=
  (limitCheck c.header_length_limit a.header_size).bind (fun _ =>
  ((if c.validate_header then a.header.validate crate_version expected_name
    else .ok ()).bind (fun _ =>
  ((if a.header.versioning_mode = .Versioned then
      (limitCheck c.payload_size_limit a.payload_size).bind (fun _ =>
        (decodeSegment a.versioned_payload).bind (fun v => unversionize v))
    else
      (limitCheck c.payload_size_limit a.payload_size).bind (fun _ =>
        decodeSegment a.raw_payload)).bind (fun deser =>
  match c.conformance with
  | .Checked params =>
      if is_conformant deser params then .ok deser
      else .error ("Deserialized object of type " ++ expected_name
        ++ " not conformant with given parameter set")
  | .Unchecked => .ok deser)))))

end SafeSer

namespace ZkSer

/-- Source: `struct InvalidArraySizeError` in
`tfhe-zk-pok/src/serialization.rs`. -/
structure InvalidArraySizeError where
  expected_len : Nat
  found_len : Nat
deriving DecidableEq

/-- Source: `enum InvalidSerializedAffineError`. -/
inductive InvalidSerializedAffineError where
  | InvalidFp (e : InvalidArraySizeError)
  | InvalidCompressedXCoordinate
deriving DecidableEq

/-- Source: `struct SerializableFp` (`val: Vec<u64>`); the `u64` limbs
are modelled as `Nat` (no limb arithmetic is performed on them). -/
structure SerializableFp where
  val : List Nat
deriving DecidableEq

/-- Source: `fn try_vec_to_array`. Note: like the source, on failure the
`expected_len` field receives the length of the supplied vector and the
`found_len` field receives the fixed target size `N`. -/
def try_vec_to_array {α : Type} (N : Nat) (vec : List α) :
    Except InvalidArraySizeError { l : List α // l.length = N } :=
  if h : vec.length = N then .ok ⟨vec, h⟩
  else .error { expected_len := vec.length, found_len := N }

/-- The arkworks field element `Fp<P, N>` as far as this codec observes
it: the `N` limbs of its internal `BigInt` (an opaque Montgomery-form
representation; the codec copies the limbs verbatim both ways). -/
def Fp (N : Nat) : Type := { l : List Nat // l.length = N }

/-- Source: `impl TryFrom<SerializableFp> for Fp<P, N>`:
`Ok(Fp(BigInt(try_vec_to_array(value.val)?), PhantomData))`. -/
def fp_try_from (N : Nat) (s : SerializableFp) :
    Except InvalidArraySizeError (Fp N) :=
  try_vec_to_array N s.val

/-- The arkworks `Affine<C>` point: the identity (the `infinity` flag
set, with canonical coordinates) or a plain coordinate pair. -/
inductive Affine (K : Type) where
  | infinity
  | point (x y : K)
deriving DecidableEq

/-- Arkworks `Neg for Affine<C>`: negates the `y` coordinate, fixes the
identity. -/
def Affine.neg {K : Type} [Neg K] : Affine K → Affine K
  | .infinity => .infinity
  | .point x y => .point x (-y)

/-- Source: `enum SerializableAffine<F>`. -/
inductive SerializableAffine (F : Type) where
  | Infinity
  | Compressed (x : F) (take_largest_y : Bool)
  | Uncompressed (x y : F)
deriving DecidableEq

/-- The base field of a short Weierstrass curve configuration, modelled
as the prime field `ZMod p`. The arkworks total order on field elements
(`PartialOrd for Fp`, used by `>` in `compressed`) compares canonical
integer representatives, i.e. `ZMod.val`. -/
def fpLtBool {p : Nat} (u v : ZMod p) : Bool := decide (u.val < v.val)

/-- Source: `SerializableAffine::compressed`. For a finite point the
sign bit is `value.y > -value.y` under the field's total order; the
coordinate conversion `Into<F>` is the identity in this instantiation
(the limb round-trip `Fp -> SerializableFp -> Fp` is exact). -/
def SerializableAffine.compressed {p : Nat} :
    Affine (ZMod p) → SerializableAffine (ZMod p)
  | .infinity => .Infinity
  | .point x y => .Compressed x (fpLtBool (-y) y)

/-- Modelled from the spec: the field square-root capability of the
curve-arithmetic engine (arkworks `Field::sqrt`, an external
collaborator not under `src/`): returns some square root of `v` when
one exists, `none` otherwise. Which of the two roots is returned is
irrelevant because the caller re-orders the pair. -/
def sqrtOpt (p : Nat) (v : ZMod p) : Option (ZMod p) :=
  ((List.range p).find? (fun n : Nat => decide ((n : ZMod p) * (n : ZMod p) = v))).map
    (fun n : Nat => (n : ZMod p))

/-- Modelled from the spec: arkworks
`Affine::get_point_from_x_unchecked` (curve capability, not under
`src/`): per the spec it "recovers y with y squared equal to the curve
equation at x via the field's square-root operation, selects the root
matching the sign", the sign selecting the larger of the two roots
under the field's total order. -/
def get_point_from_x_unchecked {p : Nat} (a b x : ZMod p) (greatest : Bool) :
    Option (Affine (ZMod p)) :=
  match sqrtOpt p (x * x * x + a * x + b) with
  | none => none
  | some y =>
    let neg_y := -y
    if greatest then
      some (.point x (if fpLtBool y neg_y then neg_y else y))
    else
      some (.point x (if fpLtBool y neg_y then y else neg_y))

/-- Source: `impl TryFrom<SerializableAffine<F>> for Affine<C>`. The
field conversion `F: TryInto<C::BaseField>` and the curve capability
`get_point_from_x_unchecked` are threaded as arguments; the
`Uncompressed` arm calls `new_unchecked` (no curve-equation check). -/
def affine_try_from {F K : Type}
    (tryInto : F → Except InvalidArraySizeError K)
    (getPoint : K → Bool → Option (Affine K)) :
    SerializableAffine F → Except InvalidSerializedAffineError (Affine K)
  | .Infinity => .ok .infinity
  | .Compressed x g =>
    match tryInto x with
    | .error e => .error (.InvalidFp e)
    | .ok xk =>
      match getPoint xk g with
      | some pt => .ok pt
      | none => .error .InvalidCompressedXCoordinate
  | .Uncompressed x y =>
    match tryInto x with
    | .error e => .error (.InvalidFp e)
    | .ok xk =>
      match tryInto y with
      | .error e => .error (.InvalidFp e)
      | .ok yk => .ok (.point xk yk)

/-- The decoder instantiated at the prime-field curve model: the field
conversion is exact (identity) and the curve capability is
`get_point_from_x_unchecked`. -/
def curve_decode {p : Nat} (a b : ZMod p) :
    SerializableAffine (ZMod p) →
    Except InvalidSerializedAffineError (Affine (ZMod p)) :=
  affine_try_from Except.ok (get_point_from_x_unchecked a b)

/-- The short Weierstrass curve equation at a point (trivially true at
the identity), for stating which points lie on the curve. -/
def onCurve {p : Nat} (a b : ZMod p) : Affine (ZMod p) → Prop
  | .infinity => True
  | .point x y => y * y = x * x * x + a * x + b

instance {p : Nat} (a b : ZMod p) : ∀ q : Affine (ZMod p), Decidable (onCurve a b q)
  | .infinity => isTrue trivial
  | .point x y => inferInstanceAs (Decidable (y * y = x * x * x + a * x + b))

/-- The sign bit carried by a compressed encoding, if any. -/
def SerializableAffine.takeLargest {F : Type} : SerializableAffine F → Option Bool
  | .Compressed _ g => some g
  | _ => none

lemma sqrtOpt_some {p : Nat} {v y : ZMod p} (h : sqrtOpt p v = some y) :
    y * y = v := by
  unfold sqrtOpt at h
  cases hfind : (List.range p).find? (fun n : Nat => decide ((n : ZMod p) * (n : ZMod p) = v)) with
  | none => rw [hfind] at h; simp at h
  | some n =>
    rw [hfind] at h
    simp only [Option.map_some'] at h
    have hp := List.find?_some hfind
    rw [decide_eq_true_eq] at hp
    rcases Option.some.inj h with rfl
    exact hp

lemma sqrtOpt_none {p : Nat} [NeZero p] {v : ZMod p} (h : sqrtOpt p v = none) :
    ∀ y : ZMod p, y * y ≠ v := by
  intro y hy
  unfold sqrtOpt at h
  cases hfind : (List.range p).find? (fun n : Nat => decide ((n : ZMod p) * (n : ZMod p) = v)) with
  | some n => rw [hfind] at h; simp at h
  | none =>
    have := List.find?_eq_none.mp hfind y.val (List.mem_range.mpr (ZMod.val_lt y))
    apply this
    rw [decide_eq_true_eq, ZMod.natCast_rightInverse y]
    exact hy

lemma val_inj {p : Nat} [NeZero p] {u v : ZMod p} (h : u.val = v.val) : u = v := by
  have := congrArg (fun m : Nat => (m : ZMod p)) h
  simpa [ZMod.natCast_rightInverse u, ZMod.natCast_rightInverse v] using this

/-- Core decompression lemma: for a finite point `(x, y)` on the curve,
looking its `x` up with the sign bit that `compressed` computes returns
exactly `(x, y)`. -/
lemma get_point_compressed {p : Nat} [Fact p.Prime] {a b x y : ZMod p}
    (h : y * y = x * x * x + a * x + b) :
    get_point_from_x_unchecked a b x (fpLtBool (-y) y) = some (.point x y) := by
  haveI : NeZero p := ⟨(Fact.out (p := p.Prime)).ne_zero⟩
  unfold get_point_from_x_unchecked
  cases hsq : sqrtOpt p (x * x * x + a * x + b) with
  | none => exact absurd h (sqrtOpt_none hsq y)
  | some y0 =>
    have hy0 : y0 * y0 = y * y := by rw [sqrtOpt_some hsq, h]
    have hroot : y0 = y ∨ y0 = -y := mul_self_eq_mul_self_iff.mp hy0
    simp only []
    by_cases hg : (-y).val < y.val
    · -- take_largest_y = true: the larger root is selected
      have hgb : fpLtBool (-y) y = true := by simp [fpLtBool, hg]
      rw [hgb]
      simp only [if_true]
      rcases hroot with rfl | rfl
      · -- y0 = y: y < -y is false
        have : ¬ (y0.val < (-y0).val) := Nat.lt_asymm hg
        simp [fpLtBool, this]
      · -- y0 = -y: (-y) < y is true, larger is -y0 = y
        have hyy : -(-y) = y := neg_neg y
        simp [fpLtBool, hyy, hg]
    · -- take_largest_y = false: the smaller root is selected
      have hgb : fpLtBool (-y) y = false := by simp [fpLtBool, hg]
      rw [hgb]
      simp only [Bool.false_eq_true, if_false]
      rcases hroot with rfl | rfl
      · by_cases h2 : y0.val < (-y0).val
        · simp [fpLtBool, h2]
        · -- neither strictly smaller: y0 = -y0
          have heq : y0 = -y0 :=
            val_inj (Nat.le_antisymm (Nat.not_lt.mp hg) (Nat.not_lt.mp h2))
          simp [fpLtBool, h2, ← heq]
      · have hyy : -(-y) = y := neg_neg y
        simp [fpLtBool, hyy, hg]

end ZkSer

namespace Ksk

/-- The current `LweKeyswitchKey<C>` entity. Its fields mirror
`LweKeyswitchKeyV0` (the source upgrade moves every field across); the
container `C` is modelled as a list of scalars, the wrapped newtypes
(`DecompositionBaseLog`, `DecompositionLevelCount`, `LweSize`,
`CiphertextModulus`) as `Nat`. -/
structure LweKeyswitchKey (α : Type) where
  data : List α
  decomp_base_log : Nat
  decomp_level_count : Nat
  output_lwe_size : Nat
  ciphertext_modulus : Nat
deriving DecidableEq

/-- Source: `struct LweKeyswitchKeyV0<C>` in
`backward_compatibility/entities/lwe_keyswitch_key.rs`. -/
structure LweKeyswitchKeyV0 (α : Type) where
  data : List α
  decomp_base_log : Nat
  decomp_level_count : Nat
  output_lwe_size : Nat
  ciphertext_modulus : Nat
deriving DecidableEq

/-- Modelled from the spec: `LweKeyswitchKey::from_container` (core
crypto entity constructor, not under `src/`): wraps the container and
the parameters into the current entity without altering them. -/
def LweKeyswitchKey.from_container {α : Type} (data : List α)
    (decomp_base_log decomp_level_count output_lwe_size
     ciphertext_modulus : Nat) : LweKeyswitchKey α :=
  { data := data
    decomp_base_log := decomp_base_log
    decomp_level_count := decomp_level_count
    output_lwe_size := output_lwe_size
    ciphertext_modulus := ciphertext_modulus }

/-- Modelled from the spec:
`lwe_keyswitch_key_data_compatibility_reverse_levels` (core crypto
algorithm, not under `src/`). Per the spec, the decomposition levels
were "stored high-to-low in one version, low-to-high in the next", so
the step "must reorder the underlying data": within each per-input-key-
element block of `decomp_level_count` ciphertexts of `output_lwe_size`
scalars each, the order of the level ciphertexts is reversed. -/
def lwe_keyswitch_key_data_compatibility_reverse_levels {α : Type}
    (ksk : LweKeyswitchKey α) : LweKeyswitchKey α :=
  { ksk with
    data :=
      ((ksk.data.toChunks (ksk.decomp_level_count * ksk.output_lwe_size)).map
        (fun block => (block.toChunks ksk.output_lwe_size).reverse.flatten)).flatten }

/-- Source: `impl Upgrade<LweKeyswitchKey<C>> for LweKeyswitchKeyV0<C>`.
The error type is `Infallible`, modelled as `Empty`. -/
def LweKeyswitchKeyV0.upgrade {α : Type} (v0 : LweKeyswitchKeyV0 α) :
    Except Empty (LweKeyswitchKey α) :=
  .ok (lwe_keyswitch_key_data_compatibility_reverse_levels
    (LweKeyswitchKey.from_container v0.data v0.decomp_base_log
      v0.decomp_level_count v0.output_lwe_size v0.ciphertext_modulus))

end Ksk

/-! ## Claim theorems -/

/-- C1: the claim states that `deserialize_from` computes the payload
size budget as the caller limit minus the header ceiling *clamped to
never be negative*, so the u64 subtraction never wraps. The code
performs an unclamped `u64` subtraction: evaluated at the failing input
`serialized_size_limit = 500` (nonzero and below the header ceiling
1000), the budget wraps to `2 ^ 64 - 500` instead of clamping to 0. -/
theorem C1_payload_budget_underflow_eval :
    SafeSer.DeserializationConfig.payload_size_limit
        (⟨500, true, .Unchecked⟩ : SafeSer.DeserializationConfig Unit)
      = 18446744073709551116 ∧
    SafeSer.DeserializationConfig.payload_size_limit
        (⟨500, true, .Unchecked⟩ : SafeSer.DeserializationConfig Unit)
      ≠ (500 : Nat) - SafeSer.HEADER_LENGTH_LIMIT := by
  constructor
  · rfl
  · decide

/-- C2: for every affine curve point (including the identity), decoding
the compressed encoding of the point yields exactly that point. -/
theorem C2_compressed_roundtrip (p : Nat) [Fact p.Prime] (a b : ZMod p)
    (q : ZkSer.Affine (ZMod p)) (h : ZkSer.onCurve a b q) :
    ZkSer.curve_decode a b (ZkSer.SerializableAffine.compressed q) = .ok q := by
  cases q with
  | infinity => rfl
  | point x y =>
    have h' : y * y = x * x * x + a * x + b := h
    have hg := ZkSer.get_point_compressed (a := a) (b := b) h'
    simp [ZkSer.curve_decode, ZkSer.SerializableAffine.compressed,
      ZkSer.affine_try_from, hg]

/-- Witness for C2 at the concrete curve `y * y = x ^ 3 + 1` over
`ZMod 5` and the on-curve point `(0, 1)`. -/
theorem C2_compressed_roundtrip_witness :
    ZkSer.onCurve (0 : ZMod 5) 1 (.point 0 1) ∧
    ZkSer.curve_decode (0 : ZMod 5) 1
        (ZkSer.SerializableAffine.compressed (.point 0 1)) = .ok (.point 0 1) :=
  ⟨by decide, @C2_compressed_roundtrip 5 ⟨by norm_num⟩ 0 1 (.point 0 1) (by decide)⟩

/-- C3: for an x-coordinate through which no curve point passes,
decoding the compressed encoding fails with
`InvalidCompressedXCoordinate` for both values of the sign bit (the
decoder is a total function, so it cannot panic). -/
theorem C3_invalid_x_coordinate_fails {p : Nat} (a b x : ZMod p)
    (h : ∀ y : ZMod p, y * y ≠ x * x * x + a * x + b) (g : Bool) :
    ZkSer.curve_decode a b (.Compressed x g)
      = .error .InvalidCompressedXCoordinate := by
  have hsq : ZkSer.sqrtOpt p (x * x * x + a * x + b) = none := by
    cases hs : ZkSer.sqrtOpt p (x * x * x + a * x + b) with
    | none => rfl
    | some y0 => exact absurd (ZkSer.sqrtOpt_some hs) (h y0)
  simp [ZkSer.curve_decode, ZkSer.affine_try_from,
    ZkSer.get_point_from_x_unchecked, hsq]

/-- Witness for C3: over `ZMod 5` with curve `y * y = x ^ 3 + 1`, the
coordinate `x = 3` gives `x ^ 3 + 1 = 3`, which is not a square mod 5;
decoding fails for both sign bits. -/
theorem C3_invalid_x_coordinate_fails_witness :
    (∀ y : ZMod 5, y * y ≠ 3 * 3 * 3 + 0 * 3 + 1) ∧
    ZkSer.curve_decode (0 : ZMod 5) 1 (.Compressed 3 true)
      = .error .InvalidCompressedXCoordinate ∧
    ZkSer.curve_decode (0 : ZMod 5) 1 (.Compressed 3 false)
      = .error .InvalidCompressedXCoordinate :=
  ⟨by decide,
   C3_invalid_x_coordinate_fails (p := 5) 0 1 3 (by decide) true,
   C3_invalid_x_coordinate_fails (p := 5) 0 1 3 (by decide) false⟩

/-- C6 counterexample: the claim asserts that for *every* non-identity
curve point, compressing the negated point yields the opposite sign
bit. On the curve `y * y = x ^ 3 + x` over `ZMod 5`, the point `(0, 0)`
is a non-identity on-curve point equal to its own negation: both it and
its negation compress with sign bit `false`, which is not the opposite
of `false`. -/
theorem C6_opposite_bit_counterexample :
    ZkSer.onCurve (1 : ZMod 5) 0 (.point 0 0) ∧
    ZkSer.Affine.point (0 : ZMod 5) 0 ≠ .infinity ∧
    ZkSer.Affine.neg (ZkSer.Affine.point (0 : ZMod 5) 0) = .point 0 0 ∧
    (ZkSer.SerializableAffine.compressed (ZkSer.Affine.point (0 : ZMod 5) 0)).takeLargest
      = some false ∧
    (ZkSer.SerializableAffine.compressed
        (ZkSer.Affine.neg (ZkSer.Affine.point (0 : ZMod 5) 0))).takeLargest
      ≠ some (!false) := by
  refine ⟨by decide, by decide, by decide, by decide, by decide⟩

/-- C6 (amended): for every non-identity curve point `(x, y)`,
compression records the sign bit `y > -y` under the field's order and
decompression from `(x, sign)` reproduces exactly `y`; and for every
such point that is not its own negation (`y ≠ -y`), compressing the
negated point yields the opposite sign bit. -/
theorem C6_sign_canonical (p : Nat) [Fact p.Prime] (a b x y : ZMod p)
    (h : y * y = x * x * x + a * x + b) :
    ZkSer.SerializableAffine.compressed (.point x y)
        = .Compressed x (ZkSer.fpLtBool (-y) y) ∧
    ZkSer.curve_decode a b (ZkSer.SerializableAffine.compressed (.point x y))
        = .ok (.point x y) ∧
    (y ≠ -y →
      ZkSer.SerializableAffine.compressed (ZkSer.Affine.neg (.point x y))
        = .Compressed x (!(ZkSer.fpLtBool (-y) y))) := by
  haveI : NeZero p := ⟨(Fact.out (p := p.Prime)).ne_zero⟩
  refine ⟨rfl, ?_, ?_⟩
  · have hg := ZkSer.get_point_compressed (a := a) (b := b) h
    simp [ZkSer.curve_decode, ZkSer.SerializableAffine.compressed,
      ZkSer.affine_try_from, hg]
  · intro hne
    have hval : (-y).val ≠ y.val := fun hv => hne (ZkSer.val_inj hv).symm
    have hflip : ZkSer.fpLtBool y (-y) = !(ZkSer.fpLtBool (-y) y) := by
      unfold ZkSer.fpLtBool
      rcases Nat.lt_trichotomy ((-y).val) y.val with h1 | h1 | h1
      · simp [h1, Nat.lt_asymm h1]
      · exact absurd h1 hval
      · simp [h1, Nat.lt_asymm h1]
    simp [ZkSer.Affine.neg, ZkSer.SerializableAffine.compressed, neg_neg, hflip]

/-- Witness for the amended C6 at the curve `y * y = x ^ 3 + 1` over
`ZMod 5` and the point `(0, 1)`, which is not its own negation. -/
theorem C6_sign_canonical_witness :
    ((1 : ZMod 5) * 1 = 0 * 0 * 0 + 0 * 0 + 1) ∧
    ZkSer.SerializableAffine.compressed (ZkSer.Affine.point (0 : ZMod 5) 1)
        = .Compressed 0 (ZkSer.fpLtBool (p := 5) (-1) 1) ∧
    ZkSer.curve_decode (0 : ZMod 5) 1
        (ZkSer.SerializableAffine.compressed (.point 0 1)) = .ok (.point 0 1) ∧
    ZkSer.SerializableAffine.compressed
        (ZkSer.Affine.neg (ZkSer.Affine.point (0 : ZMod 5) 1))
        = .Compressed 0 (!(ZkSer.fpLtBool (p := 5) (-1) 1)) :=
  ⟨by decide,
   (@C6_sign_canonical 5 ⟨by norm_num⟩ 0 1 0 1 (by decide)).1,
   (@C6_sign_canonical 5 ⟨by norm_num⟩ 0 1 0 1 (by decide)).2.1,
   (@C6_sign_canonical 5 ⟨by norm_num⟩ 0 1 0 1 (by decide)).2.2 (by decide)⟩

/-- C7: the claim states the decode error carries `expected = N` (the
fixed limb count) and `found = actual length`. Evaluating the code at a
two-limb vector decoded against a three-limb field shows the fields the
source populates are swapped: `expected_len` receives the supplied
length 2 and `found_len` receives the fixed count 3 (the success half
of the claim does hold: decode succeeds exactly on length `N`). -/
theorem C7_error_fields_swapped_eval :
    ZkSer.fp_try_from 3 ⟨[1, 2]⟩
        = .error { expected_len := 2, found_len := 3 } ∧
    ({ expected_len := 2, found_len := 3 } :
        ZkSer.InvalidArraySizeError).expected_len ≠ 3 ∧
    ZkSer.fp_try_from 3 ⟨[1, 2, 3]⟩ = .ok ⟨[1, 2, 3], rfl⟩ :=
  ⟨rfl, by decide, rfl⟩

/-- C8: upgrading a V0-tagged keyswitch key applies the level-reversal
transform to the data (rather than passing it through unchanged) and
carries every other field over unmodified; the concrete instance shows
the transform genuinely reorders the data. -/
theorem C8_upgrade_applies_level_reversal :
    (∀ (α : Type) (v0 : Ksk.LweKeyswitchKeyV0 α),
      v0.upgrade = .ok (Ksk.lwe_keyswitch_key_data_compatibility_reverse_levels
        (Ksk.LweKeyswitchKey.from_container v0.data v0.decomp_base_log
          v0.decomp_level_count v0.output_lwe_size v0.ciphertext_modulus)) ∧
      (Ksk.lwe_keyswitch_key_data_compatibility_reverse_levels
        (Ksk.LweKeyswitchKey.from_container v0.data v0.decomp_base_log
          v0.decomp_level_count v0.output_lwe_size
          v0.ciphertext_modulus)).decomp_base_log = v0.decomp_base_log ∧
      (Ksk.lwe_keyswitch_key_data_compatibility_reverse_levels
        (Ksk.LweKeyswitchKey.from_container v0.data v0.decomp_base_log
          v0.decomp_level_count v0.output_lwe_size
          v0.ciphertext_modulus)).decomp_level_count = v0.decomp_level_count ∧
      (Ksk.lwe_keyswitch_key_data_compatibility_reverse_levels
        (Ksk.LweKeyswitchKey.from_container v0.data v0.decomp_base_log
          v0.decomp_level_count v0.output_lwe_size
          v0.ciphertext_modulus)).output_lwe_size = v0.output_lwe_size ∧
      (Ksk.lwe_keyswitch_key_data_compatibility_reverse_levels
        (Ksk.LweKeyswitchKey.from_container v0.data v0.decomp_base_log
          v0.decomp_level_count v0.output_lwe_size
          v0.ciphertext_modulus)).ciphertext_modulus = v0.ciphertext_modulus) ∧
    (⟨[10, 20], 5, 2, 1, 0⟩ : Ksk.LweKeyswitchKeyV0 Nat).upgrade
      = .ok ⟨[20, 10], 5, 2, 1, 0⟩ ∧
    ([20, 10] : List Nat) ≠ [10, 20] := by
  refine ⟨fun α v0 => ⟨rfl, rfl, rfl, rfl, rfl⟩, ?_, by decide⟩
  rfl

/-- C9: decoding an `Uncompressed{x, y}` encoding whose two limb
sequences have the correct length always succeeds with exactly those
coordinates, independently of the curve capability (quantified over an
arbitrary `getPoint`), i.e. no curve-equation validation happens. -/
theorem C9_uncompressed_no_validation (N : Nat)
    (getPoint : ZkSer.Fp N → Bool → Option (ZkSer.Affine (ZkSer.Fp N)))
    (xs ys : ZkSer.SerializableFp)
    (hx : xs.val.length = N) (hy : ys.val.length = N) :
    ZkSer.affine_try_from (ZkSer.fp_try_from N) getPoint (.Uncompressed xs ys)
      = .ok (.point ⟨xs.val, hx⟩ ⟨ys.val, hy⟩) := by
  simp [ZkSer.affine_try_from, ZkSer.fp_try_from, ZkSer.try_vec_to_array, hx, hy]

/-- Witness for C9 at two-limb coordinates that certainly do not lie on
any curve the capability would accept (the capability is the constant
`none`). -/
theorem C9_uncompressed_no_validation_witness :
    ZkSer.affine_try_from (ZkSer.fp_try_from 2) (fun _ _ => none)
        (.Uncompressed ⟨[1, 2]⟩ ⟨[3, 4]⟩)
      = .ok (.point ⟨[1, 2], rfl⟩ ⟨[3, 4], rfl⟩) :=
  C9_uncompressed_no_validation 2 (fun _ _ => none) ⟨[1, 2]⟩ ⟨[3, 4]⟩ rfl rfl

/-- C5: header validation succeeds exactly when the type name matches
and, for a Versioned header, the recorded versioning-scheme version
equals `VERSIONING_VERSION` (the producer crate version plays no role:
the right-hand side for the Versioned case does not mention
`crate_version`), while for an Unversioned header the recorded producer
version must equal the running crate version. -/
theorem C5_validate_characterization (crate_version : String)
    (h : SafeSer.SerializationHeader) (expected_name : String) :
    h.validate crate_version expected_name = .ok () ↔
      (h.name = expected_name ∧
        match h.versioning_mode with
        | .Versioned => h.versioning_version = SafeSer.VERSIONING_VERSION
        | .Unversioned => h.versioning_version = crate_version) := by
  cases hm : h.versioning_mode with
  | Versioned =>
    by_cases h1 : h.versioning_version = SafeSer.VERSIONING_VERSION <;>
      by_cases h2 : h.name = expected_name <;>
        simp [SafeSer.SerializationHeader.validate, hm, h1, h2, Except.bind]
  | Unversioned =>
    by_cases h1 : h.versioning_version = crate_version <;>
      by_cases h2 : h.name = expected_name <;>
        simp [SafeSer.SerializationHeader.validate, hm, h1, h2, Except.bind]

/-- C4: a size limit of zero disables the byte ceiling at both stages:
whatever serializes (resp. deserializes to a value) under some nonzero
limit also succeeds, with the same result, under limit zero. (The
codec's zero-sentinel semantics is spec-modelled in `limitCheck`; this
theorem verifies the envelope-side plumbing: under limit zero both the
header ceiling and the wrapped payload budget are the no-limit
sentinel 0.) -/
theorem C4_zero_limit_no_ceiling :
    (∀ (m : SafeSer.SerializationVersioningMode) (L : Nat)
       (header_size : SafeSer.SerializationHeader → Nat) (vs rs : Nat)
       (cv n : String),
       L ≠ 0 →
       SafeSer.SerializationConfig.serialize_into ⟨m, L⟩ header_size vs rs cv n
         = .ok () →
       SafeSer.SerializationConfig.serialize_into ⟨m, 0⟩ header_size vs rs cv n
         = .ok ()) ∧
    (∀ (T VT P : Type) (unv : VT → Except String T) (conf : T → P → Bool)
       (cv n : String) (vh : Bool) (cm : SafeSer.ConformanceMode P) (L : Nat)
       (a : SafeSer.Artifact T VT) (t : T),
       L ≠ 0 →
       SafeSer.DeserializationConfig.deserialize_from ⟨L, vh, cm⟩ unv conf cv n a
         = .ok t →
       SafeSer.DeserializationConfig.deserialize_from ⟨0, vh, cm⟩ unv conf cv n a
         = .ok t) := by
  constructor
  · intro m L header_size vs rs cv n _ _
    cases m <;>
      simp [SafeSer.SerializationConfig.serialize_into,
        SafeSer.SerializationConfig.header_length_limit, SafeSer.limitCheck,
        Except.bind]
  · intro T VT P unv conf cv n vh cm L a t hL h
    have hh0 : SafeSer.DeserializationConfig.header_length_limit
        (⟨0, vh, cm⟩ : SafeSer.DeserializationConfig P) = 0 := by
      simp [SafeSer.DeserializationConfig.header_length_limit]
    have hp0 : SafeSer.DeserializationConfig.payload_size_limit
        (⟨0, vh, cm⟩ : SafeSer.DeserializationConfig P) = 0 := by
      simp [SafeSer.DeserializationConfig.payload_size_limit, hh0,
        SafeSer.wrappingSubU64, SafeSer.U64_MOD]
    unfold SafeSer.DeserializationConfig.deserialize_from at h ⊢
    rw [hh0, hp0]
    simp only [SafeSer.limitCheck, ne_eq, not_true_eq_false, false_and,
      if_false, Except.bind]
    cases hlc : SafeSer.limitCheck
        (SafeSer.DeserializationConfig.header_length_limit
          (⟨L, vh, cm⟩ : SafeSer.DeserializationConfig P)) a.header_size with
    | error e => rw [hlc] at h; simp [Except.bind] at h
    | ok u =>
      rw [hlc] at h
      simp only [Except.bind] at h
      cases hv : (if vh then a.header.validate cv n else Except.ok ()) with
      | error e => rw [hv] at h; simp at h
      | ok v =>
        rw [hv] at h
        cases hpc : SafeSer.limitCheck
            (SafeSer.DeserializationConfig.payload_size_limit
              (⟨L, vh, cm⟩ : SafeSer.DeserializationConfig P))
            a.payload_size with
        | error e2 =>
          rw [hpc] at h
          cases hmode : a.header.versioning_mode <;> simp [hmode] at h
        | ok w =>
          rw [hpc] at h
          cases hmode : a.header.versioning_mode <;> simp [hmode] at h ⊢ <;>
            exact h

/-- Witness for C4: a concrete object (sizes 10/10) that round-trips
under the nonzero limit 2000 also succeeds under the zero limit, at
both stages. -/
theorem C4_zero_limit_no_ceiling_witness :
    SafeSer.SerializationConfig.serialize_into ⟨.Versioned, 2000⟩
        (fun _ => 10) 10 10 "1.0" "X" = .ok () ∧
    SafeSer.SerializationConfig.serialize_into ⟨.Versioned, 0⟩
        (fun _ => 10) 10 10 "1.0" "X" = .ok () ∧
    SafeSer.DeserializationConfig.deserialize_from
        (⟨2000, true, .Unchecked⟩ : SafeSer.DeserializationConfig Unit)
        Except.ok (fun (_ : Nat) (_ : Unit) => true) "1.0" "X"
        { header := SafeSer.SerializationHeader.new_versioned "X"
          header_size := 10, payload_size := 10
          versioned_payload := some 7, raw_payload := some 99 }
      = .ok 7 ∧
    SafeSer.DeserializationConfig.deserialize_from
        (⟨0, true, .Unchecked⟩ : SafeSer.DeserializationConfig Unit)
        Except.ok (fun (_ : Nat) (_ : Unit) => true) "1.0" "X"
        { header := SafeSer.SerializationHeader.new_versioned "X"
          header_size := 10, payload_size := 10
          versioned_payload := some 7, raw_payload := some 99 }
      = .ok 7 := by
  have h1 : SafeSer.SerializationConfig.serialize_into ⟨.Versioned, 2000⟩
      (fun _ => 10) 10 10 "1.0" "X" = .ok () := rfl
  have h2 : SafeSer.DeserializationConfig.deserialize_from
      (⟨2000, true, .Unchecked⟩ : SafeSer.DeserializationConfig Unit)
      Except.ok (fun (_ : Nat) (_ : Unit) => true) "1.0" "X"
      { header := SafeSer.SerializationHeader.new_versioned "X"
        header_size := 10, payload_size := 10
        versioned_payload := some 7, raw_payload := some 99 }
    = .ok 7 := rfl
  exact ⟨h1,
    C4_zero_limit_no_ceiling.1 .Versioned 2000 (fun _ => 10) 10 10 "1.0" "X"
      (by decide) h1,
    h2,
    C4_zero_limit_no_ceiling.2 Nat Nat Unit Except.ok
      (fun (_ : Nat) (_ : Unit) => true) "1.0" "X" true .Unchecked 2000
      { header := SafeSer.SerializationHeader.new_versioned "X"
        header_size := 10, payload_size := 10
        versioned_payload := some 7, raw_payload := some 99 }
      7 (by decide) h2⟩

/-- C10: which payload-decoding path runs is determined solely by the
versioning-mode discriminant recorded in the artifact's own header:
(1) for a Versioned header the result never depends on what the bytes
would decode to as the raw type, and dually for Unversioned; (2) even
under `new_unsafe` (header validation disabled), a Versioned header is
routed through `unversionize` and (3) an Unversioned one is decoded
raw. -/
theorem C10_payload_path_from_header_mode :
    (∀ (T VT P : Type) (unv : VT → Except String T) (conf : T → P → Bool)
       (cv n : String) (c : SafeSer.DeserializationConfig P)
       (a : SafeSer.Artifact T VT),
       (a.header.versioning_mode = .Versioned →
         ∀ r, c.deserialize_from unv conf cv n { a with raw_payload := r }
            = c.deserialize_from unv conf cv n a) ∧
       (a.header.versioning_mode = .Unversioned →
         ∀ v, c.deserialize_from unv conf cv n { a with versioned_payload := v }
            = c.deserialize_from unv conf cv n a)) ∧
    (∀ (T VT P : Type) (unv : VT → Except String T) (conf : T → P → Bool)
       (cv n : String) (a : SafeSer.Artifact T VT) (vt : VT),
       a.header.versioning_mode = .Versioned →
       a.versioned_payload = some vt →
       (SafeSer.DeserializationConfig.new_unsafe (P := P)).deserialize_from
           unv conf cv n a
         = unv vt) ∧
    (∀ (T VT P : Type) (unv : VT → Except String T) (conf : T → P → Bool)
       (cv n : String) (a : SafeSer.Artifact T VT) (t : T),
       a.header.versioning_mode = .Unversioned →
       a.raw_payload = some t →
       (SafeSer.DeserializationConfig.new_unsafe (P := P)).deserialize_from
           unv conf cv n a
         = .ok t) := by
  refine ⟨?_, ?_, ?_⟩
  · intro T VT P unv conf cv n c a
    constructor
    · intro hm r
      unfold SafeSer.DeserializationConfig.deserialize_from
      simp [hm]
    · intro hm v
      unfold SafeSer.DeserializationConfig.deserialize_from
      simp [hm]
  · intro T VT P unv conf cv n a vt hm hvp
    unfold SafeSer.DeserializationConfig.deserialize_from
    simp only [SafeSer.DeserializationConfig.new_unsafe,
      SafeSer.DeserializationConfig.header_length_limit,
      SafeSer.DeserializationConfig.payload_size_limit,
      SafeSer.wrappingSubU64, SafeSer.U64_MOD]
    simp [SafeSer.limitCheck, hm, hvp, SafeSer.decodeSegment, Except.bind]
    cases hu : unv vt <;> simp [hu, Except.bind]
  · intro T VT P unv conf cv n a t hm hrp
    unfold SafeSer.DeserializationConfig.deserialize_from
    simp only [SafeSer.DeserializationConfig.new_unsafe,
      SafeSer.DeserializationConfig.header_length_limit,
      SafeSer.DeserializationConfig.payload_size_limit,
      SafeSer.wrappingSubU64, SafeSer.U64_MOD]
    simp [SafeSer.limitCheck, hm, hrp, SafeSer.decodeSegment, Except.bind]

/-- Witness for C10: concretely, swapping the raw payload of a
Versioned-headed artifact does not change the result; and under
`new_unsafe`, an artifact with an invalid header (wrong versioning
version and wrong type name) is still routed by its own discriminant:
the Versioned one through unversionize, the Unversioned one decoded
raw. -/
theorem C10_payload_path_from_header_mode_witness :
    SafeSer.DeserializationConfig.deserialize_from
        (⟨2000, true, .Unchecked⟩ : SafeSer.DeserializationConfig Unit)
        Except.ok (fun (_ : Nat) (_ : Unit) => true) "1.0" "X"
        { header := SafeSer.SerializationHeader.new_versioned "X"
          header_size := 10, payload_size := 10
          versioned_payload := some 7, raw_payload := some 5 }
      = SafeSer.DeserializationConfig.deserialize_from
        (⟨2000, true, .Unchecked⟩ : SafeSer.DeserializationConfig Unit)
        Except.ok (fun (_ : Nat) (_ : Unit) => true) "1.0" "X"
        { header := SafeSer.SerializationHeader.new_versioned "X"
          header_size := 10, payload_size := 10
          versioned_payload := some 7, raw_payload := some 99 } ∧
    (SafeSer.DeserializationConfig.new_unsafe (P := Unit)).deserialize_from
        Except.ok (fun (_ : Nat) (_ : Unit) => true) "1.0" "X"
        { header := ⟨"0.5", .Versioned, "9.9", "Wrong"⟩
          header_size := 10, payload_size := 10
          versioned_payload := some 7, raw_payload := some 99 }
      = Except.ok 7 ∧
    (SafeSer.DeserializationConfig.new_unsafe (P := Unit)).deserialize_from
        Except.ok (fun (_ : Nat) (_ : Unit) => true) "1.0" "X"
        { header := ⟨"0.5", .Unversioned, "9.9", "Wrong"⟩
          header_size := 10, payload_size := 10
          versioned_payload := none, raw_payload := some 42 }
      = Except.ok 42 :=
  ⟨(C10_payload_path_from_header_mode.1 Nat Nat Unit Except.ok
      (fun (_ : Nat) (_ : Unit) => true) "1.0" "X" ⟨2000, true, .Unchecked⟩
      { header := SafeSer.SerializationHeader.new_versioned "X"
        header_size := 10, payload_size := 10
        versioned_payload := some 7, raw_payload := some 99 }).1 rfl (some 5),
   C10_payload_path_from_header_mode.2.1 Nat Nat Unit Except.ok
      (fun (_ : Nat) (_ : Unit) => true) "1.0" "X"
      { header := ⟨"0.5", .Versioned, "9.9", "Wrong"⟩
        header_size := 10, payload_size := 10
        versioned_payload := some 7, raw_payload := some 99 } 7 rfl rfl,
   C10_payload_path_from_header_mode.2.2 Nat Nat Unit Except.ok
      (fun (_ : Nat) (_ : Unit) => true) "1.0" "X"
      { header := ⟨"0.5", .Unversioned, "9.9", "Wrong"⟩
        header_size := 10, payload_size := 10
        versioned_payload := none, raw_payload := some 42 } 42 rfl rfl⟩
